import Mathlib

/-!
A shallow embedding, in Lean, of the fixture-resolution and parameterisation
core of the `ward` test framework (file `src/ward/testing.py`), together with
theorems checking the specification document against it.

Conventions of the embedding:

* Python values that flow through literals and fixture results are abstracted
  as naturals (`Val`); raised Python exceptions are abstracted by an identity
  token (`PyErr`).  Nothing in `testing.py` inspects the content of either.
* Python callables designated as fixtures are modelled by the inductive
  `FixtureFn`: a fixture function carries its identity key, its declared
  scope, its dunder name, whether it is a generator function, its
  default-argument bindings (its declared dependencies, themselves fixture
  functions, exactly what `_resolve_single_fixture` recurses on), and its
  invocation behaviour.  A Python callable is arbitrarily stateful, so the
  behaviour receives the number of times this factory was invoked before and
  returns either a produced value or a raised exception.
* Mutation of the shared `FixtureCache` is made explicit by threading an
  `RState` value; the `trace` component of `RState` is ghost instrumentation
  that records, in program order, the metadata updates and factory
  invocations performed by the resolution algorithm.  The engine itself never
  branches on the trace; it is read only to supply the invocation count to a
  factory behaviour, mirroring how a real Python callable observes how often
  it has been called.
* Fallible Python code (raising) is modelled with `Except`; because a Python
  exception propagates while leaving every mutation of the shared cache in
  place, the state component is returned alongside the `Except` result rather
  than inside it.
-/

namespace Ward

/-- Abstraction of the Python values produced by fixture factories and held by
literal default arguments. -/
abbrev Val := Nat

/-- Abstraction of a raised Python exception (its identity). -/
abbrev PyErr := Nat

/-- Modelled from the spec: `Scope` lives in `ward.fixtures`, which is not
under `src/`.  The spec lists the three cache-validity tiers `Test`,
`Module` and `Global`. -/
inductive Scope where
  | Test
  | Module
  | Global
deriving DecidableEq, Repr

/-- Skip or expected-failure marker with an optional reason, as constructed by
`skip` and `xfail` in `src/ward/testing.py` (the `SkipMarker` and
`XfailMarker` classes themselves live in the missing `ward.models`). -/
inductive Marker where
  | skipMarker (reason : Option String)
  | xfailMarker (reason : Option String)
deriving DecidableEq, Repr

/-- Modelled from the spec: `WardMeta` lives in `ward.models`, which is not
under `src/`.  It is the side-table metadata record attached to a function
object, holding an optional marker, an optional description, and the
is-this-a-fixture tag probed by `Test.resolve_args`. -/
structure WardMeta where
  marker : Option Marker := none
  description : Option String := none
  is_fixture : Bool := false
deriving DecidableEq, Repr

/-- A Python function object as seen by the `test` decorator: its dunder name,
its dunder module, and the optional `ward_meta` attribute.  `functools.wraps`
copies all three onto the returned wrapper, and the wrapper forwards calls
unchanged, so the wrapper is observationally the wrapped record itself. -/
structure PyFunc where
  name : String
  module : String
  ward_meta : Option WardMeta := none
deriving DecidableEq, Repr

/-- The `anonymous_tests` module-level registry of `src/ward/testing.py`: a
`defaultdict(list)` from module name to the test functions declared under the
placeholder name. -/
abbrev Registry := List (String × List PyFunc)

/-- Reading `anonymous_tests[m]`: the list stored under the first matching
key, or the empty list a `defaultdict(list)` would create. -/
def registryGet (reg : Registry) (m : String) : List PyFunc :=
  match reg.find? (fun p => p.1 = m) with
  | some p => p.2
  | none => []

/-- `anonymous_tests[m].append(f)` on a `defaultdict(list)`: extend the list
under the first matching key, or create the key with a singleton list. -/
def registryAppend (reg : Registry) (m : String) (f : PyFunc) : Registry :=
  match reg with
  | [] => [(m, [f])]
  | (k, fs) :: rest =>
      if k = m then (k, fs ++ [f]) :: rest
      else (k, fs) :: registryAppend rest m f

/-- The `test(description)` decorator of `src/ward/testing.py`.  Given the
description, the decorated function and the current `anonymous_tests`
registry, it returns the function that the decorator evaluates to together
with the updated registry.  For a function named `_` the description is
written into its `ward_meta` (creating the record if absent) and the function
is appended to the registry under its module; any other function is wrapped
and returned with no metadata change and no registration.  The
`functools.wraps` wrapper is observationally the function it wraps, so it is
represented by the same record. -/
def test (description : String) (func : PyFunc) (reg : Registry) : PyFunc × Registry :=
  if func.name = "_" then
    let meta : WardMeta :=
      match func.ward_meta with
      | some m => { m with description := some description }
      | none => { marker := none, description := some description, is_fixture := false }
    let func1 : PyFunc := { func with ward_meta := some meta }
    (func1, registryAppend reg func1.module func1)
  else
    (func, reg)

/-- Modelled from the spec: the fixture-producing callable.  The `Fixture`
class and the `@fixture` tagging live in `ward.fixtures`, which is not under
`src/`; the spec describes a fixture factory as carrying a stable identity
key, a scope, and declared dependencies inferred from its default-argument
bindings.  `key` is the factory identity, `scope` its declared scope, `name`
its dunder name (used in the `FixtureError` message of
`_resolve_single_fixture`), `is_generator` whether the factory is a
two-phase generator routine, `deps` its default-argument bindings (the
children that `_resolve_single_fixture` recursively resolves), and
`behavior` the effect of invoking it: given how many times this factory was
invoked before and the resolved values of its children, it either returns a
value (for a generator, the first yielded value) or raises. -/
inductive FixtureFn : Type where
  | mk (key : Nat) (scope : Scope) (name : String) (is_generator : Bool)
       (deps : List (String × FixtureFn))
       (behavior : Nat → List (String × Option Val) → Except PyErr Val)

def FixtureFn.key : FixtureFn → Nat
  | .mk k _ _ _ _ _ => k

def FixtureFn.scope : FixtureFn → Scope
  | .mk _ sc _ _ _ _ => sc

def FixtureFn.name : FixtureFn → String
  | .mk _ _ nm _ _ _ => nm

def FixtureFn.deps : FixtureFn → List (String × FixtureFn)
  | .mk _ _ _ _ ds _ => ds

/-- Modelled from the spec: the `Fixture` wrapper object of `ward.fixtures`,
which is not under `src/`.  Per the spec data model it owns the factory
identity `key`, the `scope`, the produced `resolved_val`, the resumable
handle (`gen`, present exactly for two-phase generator factories), and the
`last_resolved_test_id` / `last_resolved_module_name` bookkeeping consulted
by the scope rules of `_resolve_single_fixture`. -/
structure Fixture where
  key : Nat
  scope : Scope
  name : String
  is_generator : Bool
  resolved_val : Option Val := none
  gen : Bool := false
  last_resolved_test_id : Option Nat := none
  last_resolved_module_name : Option String := none
deriving DecidableEq, Repr

/-- Modelled from the spec: `FixtureCache` of `ward.fixtures` is a mapping
from fixture key to `Fixture`, embedded as an association list with unique
keys maintained by `cache_fixture`. -/
abbrev FixtureCache := List (Nat × Fixture)

/-- Membership and lookup, `fixture.key in cache` / `cache[fixture.key]`. -/
def cacheLookup (c : FixtureCache) (k : Nat) : Option Fixture :=
  match c.find? (fun p => p.1 = k) with
  | some p => some p.2
  | none => none

/-- Modelled from the spec: `cache.cache_fixture(fixture)` stores the fixture
under its own key, overwriting any previous entry under that key. -/
def cache_fixture (c : FixtureCache) (f : Fixture) : FixtureCache :=
  if (c.find? (fun p => p.1 = f.key)).isSome then
    c.map (fun p => if p.1 = f.key then (p.1, f) else p)
  else
    c ++ [(f.key, f)]

/-- Ghost trace events recorded by the resolution algorithm: the metadata
update a cache miss performs on the candidate fixture, and a factory
invocation. -/
inductive Event where
  | setMeta (key : Nat) (test_id : Nat) (module_name : String)
  | invoke (key : Nat)
deriving DecidableEq, Repr

/-- The mutable state threaded through resolution: the shared fixture cache
plus the ghost event trace. -/
structure RState where
  cache : FixtureCache
  trace : List Event
deriving DecidableEq, Repr

/-- How many times the factory with key `k` has been invoked so far,
according to the trace; this is what a stateful Python callable can observe
about its own call history. -/
def invokeCount (tr : List Event) (k : Nat) : Nat :=
  (tr.filter (fun e => e = Event.invoke k)).length

/-- The errors that can propagate out of the operations of `Test`.
`fixtureError` is `FixtureError` raised with message naming the fixture and
the original exception attached as its chained cause (`raise ... from e`);
`paramError` is `ParameterisationError`, whose message names the failing
test by its name and description; `indexError` is the built-in `IndexError`
escaping from a sequence subscript.  The `FixtureError` and
`ParameterisationError` classes themselves live in `ward.errors`, not under
`src/`; they carry exactly the data stored here. -/
inductive RunError where
  | fixtureError (fixture_name : String) (cause : PyErr)
  | paramError (test_name : String) (description : Option String)
  | indexError
deriving DecidableEq, Repr

/-- A default-argument value after any `Each` substitution, as classified by
lines 161 to 164 of `src/ward/testing.py`: either it carries `ward_meta`
with `is_fixture` set (a fixture factory) or it is used as a literal.  The
spec design notes prescribe exactly this tagged representation for the
runtime attribute probe. -/
inductive ArgSpec : Type where
  | lit (v : Val)
  | fix (f : FixtureFn)

/-- A declared default-argument value of a test function: either a direct
value or an `Each` (the dataclass of `src/ward/testing.py` wrapping an
indexable tuple of values). -/
inductive DefaultArg : Type where
  | plain (a : ArgSpec)
  | each (vs : List ArgSpec)

/-- The `isinstance(arg, Each)` probe. -/
def DefaultArg.isEach : DefaultArg → Bool
  | .each _ => true
  | .plain _ => false

/-- The length of an `Each` argument (`Each.__len__`), `none` for a
non-`Each` value. -/
def DefaultArg.each_length : DefaultArg → Option Nat
  | .each vs => some vs.length
  | .plain _ => none

/-- `Each.__getitem__`: `self.args[i]`, raising `IndexError` when the index
is out of range. -/
def eachGetItem (vs : List ArgSpec) (i : Nat) : Except RunError ArgSpec :=
  match vs[i]? with
  | some a => .ok a
  | none => .error .indexError

/-- The underlying Python function of a test: its dunder name and its
signature parameters in declaration order, each with its declared default
value when it has one.  `inspect.signature(fn).parameters` enumerates
`params`; `bind_partial().apply_defaults().arguments` keeps exactly the
parameters that carry a default. -/
structure TestFn where
  name : String
  params : List (String × Option DefaultArg)

/-- The `Test` dataclass of `src/ward/testing.py`: the wrapped function, the
owning module name, the generated id, the optional marker and the optional
description.  Ids are opaque unique tokens produced by `uuid.uuid4().hex`;
the embedding represents them as naturals handed out by a counter, so that
`generate_id` never repeats an id already in use (the property `uuid4`
provides). -/
structure Test where
  fn : TestFn
  module_name : String
  id : Nat
  marker : Option Marker := none
  description : Option String := none

/-- `Test.name`: the dunder name of the wrapped function. -/
def Test.name (t : Test) : String := t.fn.name

/-- `Test.deps()`: `inspect.signature(self.fn).parameters`. -/
def Test.deps (t : Test) : List (String × Option DefaultArg) := t.fn.params

/-- `Test.has_deps`: `len(self.deps()) > 0`. -/
def Test.has_deps (t : Test) : Bool := decide (0 < t.deps.length)

/-- `Test._get_default_args()`: name to declared default value, for the
parameters that have a default, in declaration order. -/
def Test.get_default_args (t : Test) : List (String × DefaultArg) :=
  t.fn.params.filterMap (fun p =>
    match p.2 with
    | some d => some (p.1, d)
    | none => none)

/-- `Test.is_parameterised`: true iff any default argument value is an
`Each` instance. -/
def Test.is_parameterised (t : Test) : Bool :=
  t.get_default_args.any (fun p => p.2.isEach)

/-- `Test._find_number_of_instances()`: collect the lengths of the `Each`
default arguments; if the set of observed lengths has a size other than 0
or 1 raise `ParameterisationError` naming the test, otherwise return
`lengths[0]` (Python raises `IndexError` there when no `Each` is present). -/
def Test.find_number_of_instances (t : Test) : Except RunError Nat :=
  let lengths := t.get_default_args.filterMap (fun p => p.2.each_length)
  if lengths.dedup.length = 0 ∨ lengths.dedup.length = 1 then
    match lengths with
    | [] => .error .indexError
    | n :: _ => .ok n
  else
    .error (.paramError t.name t.description)

/-- `Test.get_parameterised_instances()`.  `next_id` is the id-counter state
of `generate_id`; every id at or above it is fresh.  A non-parameterised
test returns the singleton list holding the test itself; otherwise the
common `Each` length is computed and that many new `Test` records are built,
sharing `fn`, `module_name`, `marker` and `description` and each receiving a
freshly generated id. -/
def Test.get_parameterised_instances (t : Test) (next_id : Nat) :
    Except RunError (List Test × Nat) :=
  if t.is_parameterised = false then
    .ok ([t], next_id)
  else
    match t.find_number_of_instances with
    | .error e => .error e
    | .ok n =>
        .ok ((List.range n).map (fun i =>
          { fn := t.fn, module_name := t.module_name, id := next_id + i,
            marker := t.marker, description := t.description }),
          next_id + n)

/-- The cache consultation of `_resolve_single_fixture` (lines 204 to 213 of
`src/ward/testing.py`): when the key is present and the scope rule
validates, the cached fixture to return; `none` means the miss path is
taken.  `Global` scope always validates; `Module` scope requires the last
recorded module name to equal the requesting test module; `Test` scope
requires the last recorded test id to equal the requesting test id. -/
def cacheHit (t : Test) (k : Nat) (sc : Scope) (c : FixtureCache) : Option Fixture :=
  match cacheLookup c k with
  | none => none
  | some cached =>
    match sc with
    | .Global => some cached
    | .Module =>
        if cached.last_resolved_module_name = some t.module_name then some cached else none
    | .Test =>
        if cached.last_resolved_test_id = some t.id then some cached else none

mutual

/-- `Test._resolve_single_fixture(fixture_fn, cache)`.  A fresh `Fixture` is
built from the factory; if the cache holds an entry under its key and the
scope rule validates, the cached fixture is returned with no further effect.
Otherwise the candidate fixture receives the requesting test id and module
name (recorded as a `setMeta` trace event), the declared dependencies are
resolved recursively in order, the factory is invoked (an `invoke` trace
event) on the resolved child values, a raised exception is wrapped in a
`FixtureError` naming the fixture with the original exception as cause, and
on success the completed fixture is stored in the cache and returned. -/
def resolveSingleFixture (t : Test) (fn : FixtureFn) (st : RState) :
    Except RunError Fixture × RState :=
  match fn with
  | .mk k sc nm g deps beh =>
    match cacheHit t k sc st.cache with
    | some cached => (.ok cached, st)
    | none =>
      let st1 : RState := { st with trace := st.trace ++ [Event.setMeta k t.id t.module_name] }
      match resolveChildren t deps st1 with
      | (.error e, st2) => (.error e, st2)
      | (.ok kids, st2) =>
        let cnt := invokeCount st2.trace k
        let st3 : RState := { st2 with trace := st2.trace ++ [Event.invoke k] }
        match beh cnt (kids.map (fun p => (p.1, p.2.resolved_val))) with
        | .error e => (.error (.fixtureError nm e), st3)
        | .ok v =>
          let fx : Fixture := { key := k, scope := sc, name := nm, is_generator := g,
                                resolved_val := some v, gen := g,
                                last_resolved_test_id := some t.id,
                                last_resolved_module_name := some t.module_name }
          (.ok fx, { st3 with cache := cache_fixture st3.cache fx })

/-- The child-resolution loop of `_resolve_single_fixture` (lines 236 to 239
of `src/ward/testing.py`): resolve each declared dependency in order through
`resolveSingleFixture`, collecting name to resolved `Fixture`; a raised
error propagates immediately, keeping the state mutations made so far. -/
def resolveChildren (t : Test) (deps : List (String × FixtureFn)) (st : RState) :
    Except RunError (List (String × Fixture)) × RState :=
  match deps with
  | [] => (.ok [], st)
  | (n, c) :: rest =>
    match resolveSingleFixture t c st with
    | (.error e, st1) => (.error e, st1)
    | (.ok f, st1) =>
      match resolveChildren t rest st1 with
      | (.error e, st2) => (.error e, st2)
      | (.ok fs, st2) => (.ok ((n, f) :: fs), st2)

end

/-- A value stored in the mapping returned by `Test.resolve_args`: the
literal default for a non-fixture argument, or the `Fixture` wrapper object
returned by `_resolve_single_fixture` for a fixture argument. -/
inductive Resolved where
  | plain (v : Val)
  | fixtureObj (f : Fixture)
deriving DecidableEq, Repr

/-- The per-argument loop of `Test.resolve_args` (lines 156 to 165 of
`src/ward/testing.py`): substitute an `Each` value at the current iteration
index, resolve a fixture-tagged value through `_resolve_single_fixture`,
pass any other value through unchanged. -/
def resolveArgsLoop (t : Test) (args : List (String × DefaultArg)) (iteration : Nat)
    (st : RState) : Except RunError (List (String × Resolved)) × RState :=
  match args with
  | [] => (.ok [], st)
  | (nm, arg) :: rest =>
    let sub : Except RunError ArgSpec :=
      match arg with
      | .each vs => eachGetItem vs iteration
      | .plain a => .ok a
    match sub with
    | .error e => (.error e, st)
    | .ok (.fix f) =>
      match resolveSingleFixture t f st with
      | (.error e, st1) => (.error e, st1)
      | (.ok fx, st1) =>
        match resolveArgsLoop t rest iteration st1 with
        | (.error e, st2) => (.error e, st2)
        | (.ok rs, st2) => (.ok ((nm, Resolved.fixtureObj fx) :: rs), st2)
    | .ok (.lit v) =>
      match resolveArgsLoop t rest iteration st with
      | (.error e, st2) => (.error e, st2)
      | (.ok rs, st2) => (.ok ((nm, Resolved.plain v) :: rs), st2)

/-- `Test.resolve_args(cache, iteration)`: a test with no parameters returns
the empty mapping at once; otherwise the default-bound arguments are
resolved one by one. -/
def Test.resolve_args (t : Test) (st : RState) (iteration : Nat) :
    Except RunError (List (String × Resolved)) × RState :=
  if t.has_deps = false then (.ok [], st)
  else resolveArgsLoop t t.get_default_args iteration st

/-- The scope-validity table of the spec, verbatim: `Global` always reuses;
`Module` reuses when the requesting test module equals the last recorded
module name; `Test` reuses when the requesting test id equals the last
recorded test id. -/
def scopeRuleValidates (t : Test) (sc : Scope) (cached : Fixture) : Prop :=
  match sc with
  | .Global => True
  | .Module => cached.last_resolved_module_name = some t.module_name
  | .Test => cached.last_resolved_test_id = some t.id

instance (t : Test) (sc : Scope) (cached : Fixture) :
    Decidable (scopeRuleValidates t sc cached) :=
  match sc with
  | .Global => isTrue trivial
  | .Module => inferInstanceAs (Decidable (_ = _))
  | .Test => inferInstanceAs (Decidable (_ = _))

/-- A parameterised test with two `Each` default arguments of length 3,
used to instantiate the expansion theorem. -/
def wTestC4 : Test :=
  { fn := { name := "t4",
            params := [("a", some (.each [.lit 1, .lit 2, .lit 3])),
                       ("b", some (.each [.lit 4, .lit 5, .lit 6]))] },
    module_name := "m4", id := 0,
    marker := some (.skipMarker (some "r")), description := some "d4" }

/-- A test parameterised incorrectly: `Each` arguments of length 2 and 3. -/
def wTestC5 : Test :=
  { fn := { name := "t5",
            params := [("a", some (.each [.lit 1, .lit 2])),
                       ("b", some (.each [.lit 4, .lit 5, .lit 6]))] },
    module_name := "m5", id := 0, description := some "d5" }

/-- A test with default arguments but no `Each` among them. -/
def wTestC6 : Test :=
  { fn := { name := "t6",
            params := [("x", some (.plain (.lit 3))), ("y", none)] },
    module_name := "m6", id := 0 }

/-- An anonymously named function carrying prior metadata, for the decorator
theorem. -/
def wFuncC9 : PyFunc :=
  { name := "_", module := "mod9",
    ward_meta := some { marker := some (.xfailMarker none), description := none,
                        is_fixture := false } }

/-- A dependency-free fixture factory producing 42, used to exhibit what
`resolve_args` returns for a fixture argument. -/
def wFixFnC1 : FixtureFn := .mk 11 .Test "fx" false [] (fun _ _ => .ok 42)

/-- A test with one fixture default argument and one literal default
argument. -/
def wTestC1 : Test :=
  { fn := { name := "t1",
            params := [("a", some (.plain (.fix wFixFnC1))),
                       ("b", some (.plain (.lit 5)))] },
    module_name := "m1", id := 1 }

/-- The `Fixture` wrapper that resolving `wFixFnC1` for `wTestC1` builds. -/
def wFixObjC1 : Fixture :=
  { key := 11, scope := .Test, name := "fx", is_generator := false,
    resolved_val := some 42, gen := false,
    last_resolved_test_id := some 1, last_resolved_module_name := some "m1" }

/-- A module-scoped fixture factory. -/
def wFnC2 : FixtureFn := .mk 5 .Module "fm" false [] (fun _ _ => .ok 10)

/-- A cached fixture whose last recorded module matches `wTestC2`. -/
def wCachedC2 : Fixture :=
  { key := 5, scope := .Module, name := "fm", is_generator := false,
    resolved_val := some 9, gen := false,
    last_resolved_test_id := some 0, last_resolved_module_name := some "m2" }

/-- A parameterless test in module `m2`. -/
def wTestC2 : Test :=
  { fn := { name := "t2", params := [] }, module_name := "m2", id := 7 }

/-- A cache state holding `wCachedC2` under its key. -/
def wStC2 : RState := { cache := [(5, wCachedC2)], trace := [] }

/-- A stateful test-scoped fixture factory: its first invocation produces 7,
every later invocation raises exception 99. -/
def wFlaky : FixtureFn :=
  .mk 21 .Test "flaky" false []
    (fun cnt _ => if cnt = 0 then .ok 7 else .error 99)

/-- A test in module `m3` depending on `wFlaky`. -/
def wTestA3 : Test :=
  { fn := { name := "ta", params := [("f", some (.plain (.fix wFlaky)))] },
    module_name := "m3", id := 1 }

/-- A second test in module `m3`, with a different id, also depending on
`wFlaky`. -/
def wTestB3 : Test :=
  { fn := { name := "tb", params := [("f", some (.plain (.fix wFlaky)))] },
    module_name := "m3", id := 2 }

/-- The state after `wTestA3` resolved its arguments from the empty state. -/
def wStC3 : RState := (wTestA3.resolve_args { cache := [], trace := [] } 0).2

/-- The successfully resolved fixture that the first resolution of `wFlaky`
left in the cache. -/
def wFixC3cached : Fixture :=
  { key := 21, scope := .Test, name := "flaky", is_generator := false,
    resolved_val := some 7, gen := false,
    last_resolved_test_id := some 1, last_resolved_module_name := some "m3" }

/-- The tail of a fixture chain: a dependency-free factory. -/
def wChainC (sc : Scope) (v : Val) : FixtureFn :=
  .mk 3 sc "c" false [] (fun _ _ => .ok v)

/-- The middle of a fixture chain: a factory depending on `wChainC`. -/
def wChainB (sb sc : Scope) (vb vc : Val) : FixtureFn :=
  .mk 2 sb "b" false [("c", wChainC sc vc)] (fun _ _ => .ok vb)

/-- The head of a fixture chain: a factory depending on `wChainB`. -/
def wChainA (sa sb sc : Scope) (va vb vc : Val) : FixtureFn :=
  .mk 1 sa "a" false [("b", wChainB sb sc vb vc)] (fun _ _ => .ok va)

/-- A test whose only default argument is the chain head `wChainA`. -/
def wTestC8 (i : Nat) (m : String) (sa sb sc : Scope) (va vb vc : Val) : Test :=
  { fn := { name := "t8",
            params := [("a_fix", some (.plain (.fix (wChainA sa sb sc va vb vc))))] },
    module_name := m, id := i }

/-- The fixture the chain tail resolves to. -/
def wFixCc (i : Nat) (m : String) (sc : Scope) (vc : Val) : Fixture :=
  { key := 3, scope := sc, name := "c", is_generator := false,
    resolved_val := some vc, gen := false,
    last_resolved_test_id := some i, last_resolved_module_name := some m }

/-- The fixture the chain middle resolves to. -/
def wFixBb (i : Nat) (m : String) (sb : Scope) (vb : Val) : Fixture :=
  { key := 2, scope := sb, name := "b", is_generator := false,
    resolved_val := some vb, gen := false,
    last_resolved_test_id := some i, last_resolved_module_name := some m }

/-- The fixture the chain head resolves to. -/
def wFixAa (i : Nat) (m : String) (sa : Scope) (va : Val) : Fixture :=
  { key := 1, scope := sa, name := "a", is_generator := false,
    resolved_val := some va, gen := false,
    last_resolved_test_id := some i, last_resolved_module_name := some m }

/-- A dependency-free fixture factory that always raises exception 5. -/
def wFailFix : FixtureFn := .mk 31 .Test "boom" false [] (fun _ _ => .error 5)

/-- A test whose first default argument is the failing fixture `wFailFix`
and whose second is an `Each` of length 1. -/
def wTestC10 : Test :=
  { fn := { name := "t10",
            params := [("f", some (.plain (.fix wFailFix))),
                       ("e", some (.each [.lit 1]))] },
    module_name := "ma", id := 3 }

/-- A test whose only default argument is an `Each` of length 1. -/
def wTestC10b : Test :=
  { fn := { name := "t10b", params := [("e", some (.each [.lit 1]))] },
    module_name := "ma", id := 4 }

instance exceptDecidableEq {e a : Type} [DecidableEq e] [DecidableEq a] :
    DecidableEq (Except e a)
  | .ok x, .ok y =>
    if h : x = y then .isTrue (congrArg Except.ok h)
    else .isFalse (fun hc => h (Except.ok.inj hc))
  | .ok _, .error _ => .isFalse (fun hc => Except.noConfusion hc)
  | .error _, .ok _ => .isFalse (fun hc => Except.noConfusion hc)
  | .error d, .error f =>
    if h : d = f then .isTrue (congrArg Except.error h)
    else .isFalse (fun hc => h (Except.error.inj hc))

end Ward

namespace Ward

theorem cacheHit_eq_some_iff (t : Test) (k : Nat) (sc : Scope) (c : FixtureCache)
    (f : Fixture) :
    cacheHit t k sc c = some f ↔
      cacheLookup c k = some f ∧ scopeRuleValidates t sc f := by
  unfold cacheHit scopeRuleValidates
  cases h : cacheLookup c k with
  | none => simp
  | some cached =>
    cases sc with
    | Global => simp
    | Module =>
      by_cases hm : cached.last_resolved_module_name = some t.module_name <;>
        simp [hm] <;> rintro rfl <;> simp [hm]
    | Test =>
      by_cases hm : cached.last_resolved_test_id = some t.id <;>
        simp [hm] <;> rintro rfl <;> simp [hm]

theorem cacheHit_eq_none_of_lookup_none (t : Test) (k : Nat) (sc : Scope)
    (c : FixtureCache) (h : cacheLookup c k = none) :
    cacheHit t k sc c = none := by
  unfold cacheHit
  rw [h]

theorem cacheHit_eq_none_of_invalid (t : Test) (k : Nat) (sc : Scope)
    (c : FixtureCache) (f : Fixture) (h : cacheLookup c k = some f)
    (hv : ¬ scopeRuleValidates t sc f) :
    cacheHit t k sc c = none := by
  cases hh : cacheHit t k sc c with
  | none => rfl
  | some g =>
    rw [cacheHit_eq_some_iff, h] at hh
    obtain ⟨h1, h2⟩ := hh
    have hg := Option.some_inj.mp h1
    subst hg
    exact absurd h2 hv

theorem resolveSingleFixture_hit (t : Test) (k : Nat) (sc : Scope) (nm : String) (g : Bool)
    (deps : List (String × FixtureFn))
    (beh : Nat → List (String × Option Val) → Except PyErr Val)
    (st : RState) (cached : Fixture)
    (h : cacheHit t k sc st.cache = some cached) :
    resolveSingleFixture t (.mk k sc nm g deps beh) st = (.ok cached, st) := by
  rw [resolveSingleFixture, h]

theorem resolveSingleFixture_miss (t : Test) (k : Nat) (sc : Scope) (nm : String) (g : Bool)
    (deps : List (String × FixtureFn))
    (beh : Nat → List (String × Option Val) → Except PyErr Val)
    (st : RState)
    (h : cacheHit t k sc st.cache = none) :
    resolveSingleFixture t (.mk k sc nm g deps beh) st =
      (match resolveChildren t deps
          { st with trace := st.trace ++ [Event.setMeta k t.id t.module_name] } with
      | (.error e, st2) => (.error e, st2)
      | (.ok kids, st2) =>
        match beh (invokeCount st2.trace k) (kids.map (fun p => (p.1, p.2.resolved_val))) with
        | .error e => (.error (.fixtureError nm e),
            { st2 with trace := st2.trace ++ [Event.invoke k] })
        | .ok v =>
          let fx : Fixture := { key := k, scope := sc, name := nm, is_generator := g,
                                resolved_val := some v, gen := g,
                                last_resolved_test_id := some t.id,
                                last_resolved_module_name := some t.module_name }
          (.ok fx, { cache := cache_fixture st2.cache fx,
                     trace := st2.trace ++ [Event.invoke k] })) := by
  rw [resolveSingleFixture, h]

end Ward

namespace Ward

theorem resolve_trace_mono (t : Test) (fn : FixtureFn) (st : RState) :
    ∃ tl, (resolveSingleFixture t fn st).2.trace = st.trace ++ tl := by
  refine resolveSingleFixture.induct t
    (fun fn st => ∃ tl, (resolveSingleFixture t fn st).2.trace = st.trace ++ tl)
    (fun deps st => ∃ tl, (resolveChildren t deps st).2.trace = st.trace ++ tl)
    ?_ ?_ ?_ ?_ ?_ ?_ ?_ ?_ fn st
  · intro st k sc nm g deps beh cached hhit
    refine ⟨[], ?_⟩
    rw [resolveSingleFixture_hit t k sc nm g deps beh st cached hhit]
    simp
  · intro st k sc nm g deps beh hmiss st1 e st2 hch ih
    obtain ⟨tl, htl⟩ := ih
    refine ⟨Event.setMeta k t.id t.module_name :: tl, ?_⟩
    rw [resolveSingleFixture_miss t k sc nm g deps beh st hmiss, hch]
    rw [hch] at htl
    simpa using htl
  · intro st k sc nm g deps beh hmiss st1 kids st2 hch cnt e hbeh ih
    obtain ⟨tl, htl⟩ := ih
    refine ⟨Event.setMeta k t.id t.module_name :: (tl ++ [Event.invoke k]), ?_⟩
    rw [resolveSingleFixture_miss t k sc nm g deps beh st hmiss]
    simp only [hch, hbeh]
    rw [hch] at htl
    simp at htl ⊢
    simp [htl]
  · intro st k sc nm g deps beh hmiss st1 kids st2 hch cnt v hbeh ih
    obtain ⟨tl, htl⟩ := ih
    refine ⟨Event.setMeta k t.id t.module_name :: (tl ++ [Event.invoke k]), ?_⟩
    rw [resolveSingleFixture_miss t k sc nm g deps beh st hmiss]
    simp only [hch, hbeh]
    rw [hch] at htl
    simp at htl ⊢
    simp [htl]
  · intro st
    exact ⟨[], by rw [resolveChildren]; simp⟩
  · intro st n c rest e st1 hres ih
    obtain ⟨tl, htl⟩ := ih
    refine ⟨tl, ?_⟩
    rw [resolveChildren, hres]
    rw [hres] at htl
    exact htl
  · intro st n c rest f st1 hres e st2 hrest ih1 ih2
    obtain ⟨tl1, htl1⟩ := ih1
    obtain ⟨tl2, htl2⟩ := ih2
    refine ⟨tl1 ++ tl2, ?_⟩
    rw [resolveChildren]
    simp only [hres, hrest]
    rw [hres] at htl1
    rw [hrest] at htl2
    simp at htl1 htl2 ⊢
    rw [htl2, htl1, List.append_assoc]
  · intro st n c rest f st1 hres kids st2 hrest ih1 ih2
    obtain ⟨tl1, htl1⟩ := ih1
    obtain ⟨tl2, htl2⟩ := ih2
    refine ⟨tl1 ++ tl2, ?_⟩
    rw [resolveChildren]
    simp only [hres, hrest]
    rw [hres] at htl1
    rw [hrest] at htl2
    simp at htl1 htl2 ⊢
    rw [htl2, htl1, List.append_assoc]

theorem children_trace_mono (t : Test) (deps : List (String × FixtureFn)) (st : RState) :
    ∃ tl, (resolveChildren t deps st).2.trace = st.trace ++ tl := by
  induction deps generalizing st with
  | nil => exact ⟨[], by rw [resolveChildren]; simp⟩
  | cons hd rest ih =>
    obtain ⟨n, c⟩ := hd
    obtain ⟨tl1, h1⟩ := resolve_trace_mono t c st
    rw [resolveChildren]
    cases hres : resolveSingleFixture t c st with
    | mk r st1 =>
      rw [hres] at h1
      cases r with
      | error e => exact ⟨tl1, h1⟩
      | ok f =>
        obtain ⟨tl2, h2⟩ := ih st1
        cases hrest : resolveChildren t rest st1 with
        | mk r2 st2 =>
          rw [hrest] at h2
          cases r2 with
          | error e =>
            exact ⟨tl1 ++ tl2, by simp only [hrest]; rw [h2, h1, List.append_assoc]⟩
          | ok fs =>
            exact ⟨tl1 ++ tl2, by simp only [hrest]; rw [h2, h1, List.append_assoc]⟩

theorem resolveArgsLoop_nil (t : Test) (iteration : Nat) (st : RState) :
    resolveArgsLoop t [] iteration st = (.ok [], st) := by
  rw [resolveArgsLoop]

theorem resolveArgsLoop_cons_lit (t : Test) (nm : String) (v : Val)
    (rest : List (String × DefaultArg)) (iteration : Nat) (st : RState) :
    resolveArgsLoop t ((nm, DefaultArg.plain (ArgSpec.lit v)) :: rest) iteration st =
      (match resolveArgsLoop t rest iteration st with
      | (.error e, st2) => (.error e, st2)
      | (.ok rs, st2) => (.ok ((nm, Resolved.plain v) :: rs), st2)) := by
  rw [resolveArgsLoop.eq_def]

theorem resolveArgsLoop_cons_fix (t : Test) (nm : String) (f : FixtureFn)
    (rest : List (String × DefaultArg)) (iteration : Nat) (st : RState) :
    resolveArgsLoop t ((nm, DefaultArg.plain (ArgSpec.fix f)) :: rest) iteration st =
      (match resolveSingleFixture t f st with
      | (.error e, st1) => (.error e, st1)
      | (.ok fx, st1) =>
        match resolveArgsLoop t rest iteration st1 with
        | (.error e, st2) => (.error e, st2)
        | (.ok rs, st2) => (.ok ((nm, Resolved.fixtureObj fx) :: rs), st2)) := by
  rw [resolveArgsLoop.eq_def]

theorem resolveArgsLoop_cons_each_ok (t : Test) (nm : String) (vs : List ArgSpec)
    (a : ArgSpec) (rest : List (String × DefaultArg)) (iteration : Nat) (st : RState)
    (h : eachGetItem vs iteration = .ok a) :
    resolveArgsLoop t ((nm, DefaultArg.each vs) :: rest) iteration st =
      resolveArgsLoop t ((nm, DefaultArg.plain a) :: rest) iteration st := by
  rw [resolveArgsLoop.eq_def]
  conv_rhs => rw [resolveArgsLoop.eq_def]
  simp only [h]

theorem resolveArgsLoop_cons_each_err (t : Test) (nm : String) (vs : List ArgSpec)
    (e : RunError) (rest : List (String × DefaultArg)) (iteration : Nat) (st : RState)
    (h : eachGetItem vs iteration = .error e) :
    resolveArgsLoop t ((nm, DefaultArg.each vs) :: rest) iteration st = (.error e, st) := by
  rw [resolveArgsLoop.eq_def]
  simp only [h]

theorem resolveArgsLoop_append (t : Test) (xs ys : List (String × DefaultArg))
    (iteration : Nat) (st : RState) :
    resolveArgsLoop t (xs ++ ys) iteration st =
      (match resolveArgsLoop t xs iteration st with
      | (.error e, st1) => (.error e, st1)
      | (.ok rs, st1) =>
        match resolveArgsLoop t ys iteration st1 with
        | (.error e, st2) => (.error e, st2)
        | (.ok rs2, st2) => (.ok (rs ++ rs2), st2)) := by
  induction xs generalizing st with
  | nil =>
    cases hys : resolveArgsLoop t ys iteration st with
    | mk r st2 => cases r <;> simp [resolveArgsLoop_nil, hys]
  | cons hd rest ih =>
    obtain ⟨nm, arg⟩ := hd
    cases arg with
    | plain a =>
      cases a with
      | lit v =>
        rw [List.cons_append, resolveArgsLoop_cons_lit, resolveArgsLoop_cons_lit, ih st]
        cases hxs : resolveArgsLoop t rest iteration st with
        | mk r st1 =>
          cases r with
          | error e => simp [hxs]
          | ok rs =>
            cases hys : resolveArgsLoop t ys iteration st1 with
            | mk r2 st2 => cases r2 <;> simp [hxs, hys]
      | fix f =>
        rw [List.cons_append, resolveArgsLoop_cons_fix, resolveArgsLoop_cons_fix]
        cases hres : resolveSingleFixture t f st with
        | mk r st1 =>
          cases r with
          | error e => simp [hres]
          | ok fx =>
            simp only [hres]
            rw [ih st1]
            cases hxs : resolveArgsLoop t rest iteration st1 with
            | mk r2 st2 =>
              cases r2 with
              | error e => simp [hxs]
              | ok rs =>
                cases hys : resolveArgsLoop t ys iteration st2 with
                | mk r3 st3 => cases r3 <;> simp [hxs, hys]
    | each vs =>
      cases hsub : eachGetItem vs iteration with
      | error e =>
        rw [List.cons_append,
          resolveArgsLoop_cons_each_err t nm vs e (rest ++ ys) iteration st hsub,
          resolveArgsLoop_cons_each_err t nm vs e rest iteration st hsub]
      | ok a =>
        rw [List.cons_append,
          resolveArgsLoop_cons_each_ok t nm vs a (rest ++ ys) iteration st hsub,
          resolveArgsLoop_cons_each_ok t nm vs a rest iteration st hsub]
        cases a with
        | lit v =>
          rw [resolveArgsLoop_cons_lit, resolveArgsLoop_cons_lit, ih st]
          cases hxs : resolveArgsLoop t rest iteration st with
          | mk r st1 =>
            cases r with
            | error e => simp [hxs]
            | ok rs =>
              cases hys : resolveArgsLoop t ys iteration st1 with
              | mk r2 st2 => cases r2 <;> simp [hxs, hys]
        | fix f =>
          rw [resolveArgsLoop_cons_fix, resolveArgsLoop_cons_fix]
          cases hres : resolveSingleFixture t f st with
          | mk r st1 =>
            cases r with
            | error e => simp [hres]
            | ok fx =>
              simp only [hres]
              rw [ih st1]
              cases hxs : resolveArgsLoop t rest iteration st1 with
              | mk r2 st2 =>
                cases r2 with
                | error e => simp [hxs]
                | ok rs =>
                  cases hys : resolveArgsLoop t ys iteration st2 with
                  | mk r3 st3 => cases r3 <;> simp [hxs, hys]

theorem registryGet_registryAppend (reg : Registry) (m : String) (f : PyFunc) :
    registryGet (registryAppend reg m f) m = registryGet reg m ++ [f] := by
  induction reg with
  | nil => simp [registryAppend, registryGet, List.find?]
  | cons hd rest ih =>
    obtain ⟨k, fs⟩ := hd
    by_cases hk : k = m
    · subst hk
      simp [registryAppend, registryGet, List.find?]
    · simp [registryAppend, registryGet, List.find?, hk] at ih ⊢
      exact ih

theorem has_deps_of_default_args_ne_nil (t : Test) (h : t.get_default_args ≠ []) :
    t.has_deps = true := by
  cases hp : t.fn.params with
  | nil =>
    exact absurd (by simp [Test.get_default_args, hp]) h
  | cons q qs =>
    simp [Test.has_deps, Test.deps, hp]

end Ward

namespace Ward

theorem nodup_all_eq_length_le (l : List Nat) (n : Nat) (hnd : l.Nodup)
    (hall : ∀ x ∈ l, x = n) : l.length = 0 ∨ l.length = 1 := by
  match l, hnd with
  | [], _ => exact Or.inl rfl
  | [a], _ => exact Or.inr rfl
  | a :: b :: rest, hnd =>
    have ha : a = n := hall a (by simp)
    have hb : b = n := hall b (by simp)
    rw [List.nodup_cons] at hnd
    exact absurd (by simp [ha, hb]) hnd.1

theorem find_number_eq_ok (t : Test) (n : Nat)
    (hpar : t.is_parameterised = true)
    (hlen : ∀ p ∈ t.get_default_args, p.2.each_length = none ∨ p.2.each_length = some n) :
    t.find_number_of_instances = .ok n := by
  unfold Test.find_number_of_instances
  have hall : ∀ x ∈ t.get_default_args.filterMap (fun p => p.2.each_length), x = n := by
    intro x hx
    rw [List.mem_filterMap] at hx
    obtain ⟨p, hp, hpx⟩ := hx
    rcases hlen p hp with h | h
    · rw [h] at hpx; cases hpx
    · rw [h] at hpx; exact (Option.some_inj.mp hpx).symm
  have hne : t.get_default_args.filterMap (fun p => p.2.each_length) ≠ [] := by
    unfold Test.is_parameterised at hpar
    rw [List.any_eq_true] at hpar
    obtain ⟨p, hp, hpe⟩ := hpar
    intro hnil
    cases harg : p.2 with
    | plain a => rw [harg] at hpe; cases hpe
    | each vs =>
      have : vs.length ∈ t.get_default_args.filterMap (fun p => p.2.each_length) := by
        rw [List.mem_filterMap]
        exact ⟨p, hp, by rw [harg]; rfl⟩
      rw [hnil] at this
      cases this
  cases hl : t.get_default_args.filterMap (fun p => p.2.each_length) with
  | nil => exact absurd hl hne
  | cons m rest =>
    have hm : m = n := hall m (by rw [hl]; simp)
    have hcond := nodup_all_eq_length_le (m :: rest).dedup n (List.nodup_dedup _)
      (fun x hx => hall x (by rw [hl]; exact List.mem_dedup.mp hx))
    subst hm
    simp only [hl, hcond, if_pos]

theorem find_number_eq_error (t : Test) (p q : String × DefaultArg) (m n : Nat)
    (hp : p ∈ t.get_default_args) (hq : q ∈ t.get_default_args)
    (hpm : p.2.each_length = some m) (hqn : q.2.each_length = some n) (hmn : m ≠ n) :
    t.find_number_of_instances = .error (.paramError t.name t.description) := by
  unfold Test.find_number_of_instances
  have hmm : m ∈ (t.get_default_args.filterMap (fun p => p.2.each_length)).dedup :=
    List.mem_dedup.mpr (List.mem_filterMap.mpr ⟨p, hp, hpm⟩)
  have hnm : n ∈ (t.get_default_args.filterMap (fun p => p.2.each_length)).dedup :=
    List.mem_dedup.mpr (List.mem_filterMap.mpr ⟨q, hq, hqn⟩)
  have hcond : ¬ ((t.get_default_args.filterMap (fun p => p.2.each_length)).dedup.length = 0 ∨
      (t.get_default_args.filterMap (fun p => p.2.each_length)).dedup.length = 1) := by
    rintro (h0 | h1)
    · rw [List.length_eq_zero] at h0
      rw [h0] at hmm
      cases hmm
    · rw [List.length_eq_one] at h1
      obtain ⟨a, ha⟩ := h1
      rw [ha] at hmm hnm
      simp at hmm hnm
      exact hmn (hmm.trans hnm.symm)
  rw [if_neg hcond]

/-- C6: a test none of whose default argument values is an `Each` has
`is_parameterised` false and expands to the one-element list holding the
test object itself, with the same id and no cloning; and conversely
`is_parameterised` is true exactly when some default argument value is an
`Each` instance. -/
theorem C6_no_each_means_not_parameterised (t : Test) (next_id : Nat) :
    (t.is_parameterised = true ↔ ∃ p ∈ t.get_default_args, p.2.isEach = true) ∧
    ((¬ ∃ p ∈ t.get_default_args, p.2.isEach = true) →
      t.is_parameterised = false ∧
      t.get_parameterised_instances next_id = .ok ([t], next_id)) := by
  constructor
  · simp [Test.is_parameterised, List.any_eq_true]
  · intro h
    have hfalse : t.is_parameterised = false := by
      unfold Test.is_parameterised
      rw [List.any_eq_false]
      intro p hp
      intro hpe
      exact h ⟨p, hp, hpe⟩
    refine ⟨hfalse, ?_⟩
    unfold Test.get_parameterised_instances
    rw [hfalse]
    simp

/-- Closed instantiation of the C6 theorem at a test with a literal default
argument and a defaultless parameter. -/
theorem C6_witness :
    wTestC6.is_parameterised = false ∧
    wTestC6.get_parameterised_instances 4 = .ok ([wTestC6], 4) :=
  (C6_no_each_means_not_parameterised wTestC6 4).2 (by decide)

/-- C4: a parameterised test whose `Each` default arguments all have length
`n` expands into exactly `n` new tests, each sharing the underlying
function, module name, marker and description of the original and each
carrying a freshly generated id distinct from the original id and from one
another. -/
theorem C4_parameterised_expansion (t : Test) (next_id n : Nat)
    (hpar : t.is_parameterised = true)
    (hlen : ∀ p ∈ t.get_default_args, p.2.each_length = none ∨ p.2.each_length = some n)
    (hid : t.id < next_id) :
    ∃ ts, t.get_parameterised_instances next_id = .ok (ts, next_id + n) ∧
      ts.length = n ∧
      (∀ t1 ∈ ts, t1.fn = t.fn ∧ t1.module_name = t.module_name ∧
        t1.marker = t.marker ∧ t1.description = t.description ∧ t1.id ≠ t.id) ∧
      ts.Pairwise (fun a b => a.id ≠ b.id) := by
  have hfind := find_number_eq_ok t n hpar hlen
  refine ⟨(List.range n).map (fun i =>
    { fn := t.fn, module_name := t.module_name, id := next_id + i,
      marker := t.marker, description := t.description }), ?_, ?_, ?_, ?_⟩
  · unfold Test.get_parameterised_instances
    rw [hpar, hfind]
    simp
  · simp
  · intro t1 ht1
    rw [List.mem_map] at ht1
    obtain ⟨i, hi, rfl⟩ := ht1
    refine ⟨rfl, rfl, rfl, rfl, ?_⟩
    simp only []
    omega
  · refine List.Pairwise.map _ ?_ (List.pairwise_lt_range n)
    intro a b hab
    simp only []
    omega

/-- Closed instantiation of the C4 theorem at a test with two `Each`
arguments of length 3. -/
theorem C4_witness :
    ∃ ts, wTestC4.get_parameterised_instances 1 = .ok (ts, 1 + 3) ∧
      ts.length = 3 ∧
      (∀ t1 ∈ ts, t1.fn = wTestC4.fn ∧ t1.module_name = wTestC4.module_name ∧
        t1.marker = wTestC4.marker ∧ t1.description = wTestC4.description ∧
        t1.id ≠ wTestC4.id) ∧
      ts.Pairwise (fun a b => a.id ≠ b.id) :=
  C4_parameterised_expansion wTestC4 1 3 (by decide) (by decide) (by decide)

/-- C5: a parameterised test whose `Each` default arguments exhibit two
distinct lengths fails to expand: `get_parameterised_instances` raises
`ParameterisationError` naming the test, and no instances are produced. -/
theorem C5_length_mismatch_paramerror (t : Test) (next_id : Nat)
    (p q : String × DefaultArg) (m n : Nat)
    (hp : p ∈ t.get_default_args) (hq : q ∈ t.get_default_args)
    (hpm : p.2.each_length = some m) (hqn : q.2.each_length = some n) (hmn : m ≠ n) :
    t.get_parameterised_instances next_id =
      .error (.paramError t.name t.description) := by
  have hpar : t.is_parameterised = true := by
    unfold Test.is_parameterised
    rw [List.any_eq_true]
    refine ⟨p, hp, ?_⟩
    cases harg : p.2 with
    | plain a => rw [harg] at hpm; cases hpm
    | each vs => rfl
  unfold Test.get_parameterised_instances
  rw [hpar, find_number_eq_error t p q m n hp hq hpm hqn hmn]
  simp

/-- Closed instantiation of the C5 theorem at a test with `Each` arguments
of length 2 and 3. -/
theorem C5_witness :
    wTestC5.get_parameterised_instances 9 =
      .error (.paramError wTestC5.name wTestC5.description) :=
  C5_length_mismatch_paramerror wTestC5 9
    ("a", .each [.lit 1, .lit 2]) ("b", .each [.lit 4, .lit 5, .lit 6]) 2 3
    (by simp [wTestC5, Test.get_default_args]) (by simp [wTestC5, Test.get_default_args])
    (by decide) (by decide) (by decide)

/-- C9: the `test(description)` decorator registers a function and attaches
the description exactly when the function is named `_`: such a function gets
the description written into its metadata and is appended to the per-module
anonymous-test registry under its module name; a function with any other
name is returned as is, with no metadata change and no registration. -/
theorem C9_test_decorator (d : String) (reg : Registry) (f : PyFunc) :
    (f.name = "_" →
      ∃ f1, test d f reg = (f1, registryAppend reg f.module f1) ∧
        f1.name = f.name ∧ f1.module = f.module ∧
        (∃ m, f1.ward_meta = some m ∧ m.description = some d) ∧
        registryGet (test d f reg).2 f.module = registryGet reg f.module ++ [f1]) ∧
    (f.name ≠ "_" → test d f reg = (f, reg)) := by
  constructor
  · intro hn
    unfold test
    rw [if_pos hn]
    cases hm : f.ward_meta with
    | none =>
      refine ⟨_, rfl, rfl, rfl, ⟨_, rfl, rfl⟩, ?_⟩
      exact registryGet_registryAppend reg f.module _
    | some m0 =>
      refine ⟨_, rfl, rfl, rfl, ⟨_, rfl, rfl⟩, ?_⟩
      exact registryGet_registryAppend reg f.module _
  · intro hn
    unfold test
    rw [if_neg hn]

/-- Closed instantiation of the C9 theorem at an anonymously named function
with pre-existing metadata and at a regularly named function. -/
theorem C9_witness :
    (∃ f1, test "desc" wFuncC9 [] = (f1, registryAppend [] wFuncC9.module f1) ∧
      f1.name = wFuncC9.name ∧ f1.module = wFuncC9.module ∧
      (∃ m, f1.ward_meta = some m ∧ m.description = some "desc") ∧
      registryGet (test "desc" wFuncC9 []).2 wFuncC9.module =
        registryGet [] wFuncC9.module ++ [f1]) ∧
    test "desc" { name := "g", module := "mod9" } [] =
      ({ name := "g", module := "mod9" }, []) :=
  ⟨(C9_test_decorator "desc" [] wFuncC9).1 (by decide),
   (C9_test_decorator "desc" [] { name := "g", module := "mod9" }).2 (by decide)⟩

end Ward

namespace Ward

theorem cacheLookup_cache_fixture_self (c : FixtureCache) (f : Fixture) :
    cacheLookup (cache_fixture c f) f.key = some f := by
  induction c with
  | nil => simp [cache_fixture, cacheLookup, List.find?]
  | cons hd rest ih =>
    obtain ⟨k0, f0⟩ := hd
    by_cases hk : k0 = f.key
    · subst hk
      simp [cache_fixture, cacheLookup, List.find?]
    · cases hrest : List.find? (fun p => decide (p.1 = f.key)) rest with
      | some q =>
        simp [cache_fixture, cacheLookup, List.find?, hk, hrest] at ih ⊢
        try exact ih
      | none =>
        simp [cache_fixture, cacheLookup, List.find?, hk, hrest] at ih ⊢
        try exact ih

end Ward

namespace Ward

/-- C2: when the cache holds an entry under the factory key and its scope
rule validates (`Global` always, `Module` on matching module name, `Test` on
matching test id), `_resolve_single_fixture` returns the cached fixture
unchanged with no factory invocation and no state change; otherwise, when
the call returns successfully, the factory was re-invoked and the entry
stored under the key is the freshly resolved fixture that is returned. -/
theorem C2_scope_validation (t : Test) (k : Nat) (sc : Scope) (nm : String) (g : Bool)
    (deps : List (String × FixtureFn))
    (beh : Nat → List (String × Option Val) → Except PyErr Val) (st : RState) :
    (∀ cached, cacheLookup st.cache k = some cached → scopeRuleValidates t sc cached →
      resolveSingleFixture t (.mk k sc nm g deps beh) st = (.ok cached, st)) ∧
    ((cacheLookup st.cache k = none ∨
      (∃ cached, cacheLookup st.cache k = some cached ∧ ¬ scopeRuleValidates t sc cached)) →
      ∀ fx st1, resolveSingleFixture t (.mk k sc nm g deps beh) st = (.ok fx, st1) →
        (∃ mid, st1.trace = st.trace ++
          Event.setMeta k t.id t.module_name :: (mid ++ [Event.invoke k])) ∧
        cacheLookup st1.cache k = some fx ∧
        fx.resolved_val.isSome = true) := by
  constructor
  · intro cached hl hv
    exact resolveSingleFixture_hit t k sc nm g deps beh st cached
      ((cacheHit_eq_some_iff t k sc st.cache cached).mpr ⟨hl, hv⟩)
  · intro hmiss fx st1 hres
    have hm : cacheHit t k sc st.cache = none := by
      rcases hmiss with h | ⟨cached, hl, hv⟩
      · exact cacheHit_eq_none_of_lookup_none t k sc st.cache h
      · exact cacheHit_eq_none_of_invalid t k sc st.cache cached hl hv
    rw [resolveSingleFixture_miss t k sc nm g deps beh st hm] at hres
    obtain ⟨tl, htl⟩ := children_trace_mono t deps
      { st with trace := st.trace ++ [Event.setMeta k t.id t.module_name] }
    cases hch : resolveChildren t deps
        { st with trace := st.trace ++ [Event.setMeta k t.id t.module_name] } with
    | mk rc st2 =>
      rw [hch] at htl
      simp only [hch] at hres
      cases rc with
      | error e => cases hres
      | ok kids =>
        dsimp only [] at hres
        cases hbeh : beh (invokeCount st2.trace k)
            (kids.map (fun p => (p.1, p.2.resolved_val))) with
        | error e =>
          rw [hbeh] at hres
          cases hres
        | ok v =>
          rw [hbeh] at hres
          simp only [Prod.mk.injEq, Except.ok.injEq] at hres
          obtain ⟨hfx, hst⟩ := hres
          refine ⟨⟨tl, ?_⟩, ?_, ?_⟩
          · rw [← hst]
            simp only []
            rw [htl]
            simp [List.append_assoc]
          · rw [← hst, ← hfx]
            simp only []
            exact cacheLookup_cache_fixture_self st2.cache _
          · rw [← hfx]
            rfl

/-- Closed instantiation of the hit branch of the C2 theorem: a module
scoped fixture with a matching cached module name is returned from the cache
with no state change. -/
theorem C2_witness :
    resolveSingleFixture wTestC2 wFnC2 wStC2 = (.ok wCachedC2, wStC2) :=
  (C2_scope_validation wTestC2 5 .Module "fm" false [] (fun _ _ => .ok 10) wStC2).1
    wCachedC2 (by decide) (by decide)

/-- C7: on a cache miss the candidate fixture receives the requesting test
id and module name before the factory is invoked: the first event the miss
path records is the metadata update, the invocation event for the key comes
later, and the fixture a successful call returns carries exactly the
requesting test id and module name. -/
theorem C7_metadata_before_invocation (t : Test) (k : Nat) (sc : Scope) (nm : String)
    (g : Bool) (deps : List (String × FixtureFn))
    (beh : Nat → List (String × Option Val) → Except PyErr Val) (st : RState)
    (hmiss : cacheHit t k sc st.cache = none) :
    (∃ tl, (resolveSingleFixture t (.mk k sc nm g deps beh) st).2.trace =
      st.trace ++ Event.setMeta k t.id t.module_name :: tl) ∧
    (∀ fx st1, resolveSingleFixture t (.mk k sc nm g deps beh) st = (.ok fx, st1) →
      fx.last_resolved_test_id = some t.id ∧
      fx.last_resolved_module_name = some t.module_name ∧
      ∃ tl, st1.trace = st.trace ++
        Event.setMeta k t.id t.module_name :: (tl ++ [Event.invoke k])) := by
  obtain ⟨tl, htl⟩ := children_trace_mono t deps
    { st with trace := st.trace ++ [Event.setMeta k t.id t.module_name] }
  constructor
  · rw [resolveSingleFixture_miss t k sc nm g deps beh st hmiss]
    cases hch : resolveChildren t deps
        { st with trace := st.trace ++ [Event.setMeta k t.id t.module_name] } with
    | mk rc st2 =>
      rw [hch] at htl
      dsimp only [] at htl
      cases rc with
      | error e =>
        dsimp only []
        refine ⟨tl, ?_⟩
        rw [htl]
        simp [List.append_assoc]
      | ok kids =>
        dsimp only []
        cases hbeh : beh (invokeCount st2.trace k)
            (kids.map (fun p => (p.1, p.2.resolved_val))) with
        | error e =>
          dsimp only []
          refine ⟨tl ++ [Event.invoke k], ?_⟩
          rw [htl]
          simp [List.append_assoc]
        | ok v =>
          dsimp only []
          refine ⟨tl ++ [Event.invoke k], ?_⟩
          rw [htl]
          simp [List.append_assoc]
  · intro fx st1 hres
    rw [resolveSingleFixture_miss t k sc nm g deps beh st hmiss] at hres
    cases hch : resolveChildren t deps
        { st with trace := st.trace ++ [Event.setMeta k t.id t.module_name] } with
    | mk rc st2 =>
      rw [hch] at htl
      simp only [hch] at hres
      cases rc with
      | error e => cases hres
      | ok kids =>
        dsimp only [] at hres
        cases hbeh : beh (invokeCount st2.trace k)
            (kids.map (fun p => (p.1, p.2.resolved_val))) with
        | error e =>
          rw [hbeh] at hres
          cases hres
        | ok v =>
          rw [hbeh] at hres
          simp only [Prod.mk.injEq, Except.ok.injEq] at hres
          obtain ⟨hfx, hst⟩ := hres
          refine ⟨by rw [← hfx], by rw [← hfx], tl, ?_⟩
          rw [← hst]
          simp only []
          rw [htl]
          simp [List.append_assoc]

/-- Closed instantiation of the C7 theorem at a module scoped fixture
resolved against an empty cache. -/
theorem C7_witness :
    (∃ tl, (resolveSingleFixture wTestC2 wFnC2 { cache := [], trace := [] }).2.trace =
      [] ++ Event.setMeta 5 wTestC2.id wTestC2.module_name :: tl) ∧
    (∀ fx st1,
      resolveSingleFixture wTestC2 wFnC2 { cache := [], trace := [] } = (.ok fx, st1) →
      fx.last_resolved_test_id = some wTestC2.id ∧
      fx.last_resolved_module_name = some wTestC2.module_name ∧
      ∃ tl, st1.trace = [] ++
        Event.setMeta 5 wTestC2.id wTestC2.module_name :: (tl ++ [Event.invoke 5])) :=
  C7_metadata_before_invocation wTestC2 5 .Module "fm" false []
    (fun _ _ => .ok 10) { cache := [], trace := [] } (by decide)

end Ward

namespace Ward

/-- C8: resolving a fixture chain a depending on b depending on c through
`resolve_args` from an empty cache invokes c before b and b before a (the
invoke events appear in that order in the trace), and afterwards the cache
holds entries for a, b and c, each stored under its own identity key and
carrying its own resolved value. -/
theorem C8_chain_order (i : Nat) (m : String) (sa sb sc : Scope) (va vb vc : Val) :
    (wTestC8 i m sa sb sc va vb vc).resolve_args { cache := [], trace := [] } 0 =
      (.ok [("a_fix", Resolved.fixtureObj (wFixAa i m sa va))],
       { cache := [(3, wFixCc i m sc vc), (2, wFixBb i m sb vb), (1, wFixAa i m sa va)],
         trace := [Event.setMeta 1 i m, Event.setMeta 2 i m, Event.setMeta 3 i m,
                   Event.invoke 3, Event.invoke 2, Event.invoke 1] }) := by
  rfl

end Ward

namespace Ward

theorem resolveArgsLoop_shape (t : Test) (iteration : Nat)
    (args : List (String × DefaultArg)) :
    ∀ (st : RState) (r : List (String × Resolved)) (st1 : RState),
    resolveArgsLoop t args iteration st = (.ok r, st1) →
    List.Forall₂ (fun (a : String × DefaultArg) (b : String × Resolved) =>
      b.1 = a.1 ∧
      ∀ spec, (match a.2 with
        | DefaultArg.each vs => eachGetItem vs iteration
        | DefaultArg.plain x => Except.ok x) = .ok spec →
        (∀ v, spec = ArgSpec.lit v → b.2 = Resolved.plain v) ∧
        (∀ f, spec = ArgSpec.fix f → ∃ fx, b.2 = Resolved.fixtureObj fx)) args r := by
  induction args with
  | nil =>
    intro st r st1 h
    rw [resolveArgsLoop_nil] at h
    simp only [Prod.mk.injEq, Except.ok.injEq] at h
    rw [← h.1]
    exact List.Forall₂.nil
  | cons hd rest ih =>
    obtain ⟨nm, arg⟩ := hd
    intro st r st1 h
    cases arg with
    | plain a =>
      cases a with
      | lit v =>
        rw [resolveArgsLoop_cons_lit] at h
        cases hxs : resolveArgsLoop t rest iteration st with
        | mk rc st2 =>
          rw [hxs] at h
          cases rc with
          | error e => cases h
          | ok rs =>
            dsimp only [] at h
            simp only [Prod.mk.injEq, Except.ok.injEq] at h
            rw [← h.1]
            refine List.Forall₂.cons ⟨rfl, ?_⟩ (ih st rs st2 hxs)
            intro spec hspec
            simp only [Except.ok.injEq] at hspec
            constructor
            · intro v2 hv2
              have hv3 := hspec.trans hv2
              injection hv3 with hv4
              exact congrArg Resolved.plain hv4
            · intro f hf
              exact ArgSpec.noConfusion (hspec.trans hf)
      | fix f =>
        rw [resolveArgsLoop_cons_fix] at h
        cases hres : resolveSingleFixture t f st with
        | mk rc st2 =>
          rw [hres] at h
          cases rc with
          | error e => cases h
          | ok fx =>
            dsimp only [] at h
            cases hxs : resolveArgsLoop t rest iteration st2 with
            | mk rc2 st3 =>
              rw [hxs] at h
              cases rc2 with
              | error e => cases h
              | ok rs =>
                dsimp only [] at h
                simp only [Prod.mk.injEq, Except.ok.injEq] at h
                rw [← h.1]
                refine List.Forall₂.cons ⟨rfl, ?_⟩ (ih st2 rs st3 hxs)
                intro spec hspec
                simp only [Except.ok.injEq] at hspec
                constructor
                · intro v2 hv2
                  exact ArgSpec.noConfusion (hspec.trans hv2)
                · intro f2 hf2
                  exact ⟨fx, rfl⟩
    | each vs =>
      cases hsub : eachGetItem vs iteration with
      | error e =>
        rw [resolveArgsLoop_cons_each_err t nm vs e rest iteration st hsub] at h
        cases h
      | ok a =>
        rw [resolveArgsLoop_cons_each_ok t nm vs a rest iteration st hsub] at h
        cases a with
        | lit v =>
          rw [resolveArgsLoop_cons_lit] at h
          cases hxs : resolveArgsLoop t rest iteration st with
          | mk rc st2 =>
            rw [hxs] at h
            cases rc with
            | error e => cases h
            | ok rs =>
              dsimp only [] at h
              simp only [Prod.mk.injEq, Except.ok.injEq] at h
              rw [← h.1]
              refine List.Forall₂.cons ⟨rfl, ?_⟩ (ih st rs st2 hxs)
              intro spec hspec
              dsimp only [] at hspec
              rw [hsub] at hspec
              simp only [Except.ok.injEq] at hspec
              constructor
              · intro v2 hv2
                have hv3 := hspec.trans hv2
                injection hv3 with hv4
                exact congrArg Resolved.plain hv4
              · intro f hf
                exact ArgSpec.noConfusion (hspec.trans hf)
        | fix f =>
          rw [resolveArgsLoop_cons_fix] at h
          cases hres : resolveSingleFixture t f st with
          | mk rc st2 =>
            rw [hres] at h
            cases rc with
            | error e => cases h
            | ok fx =>
              dsimp only [] at h
              cases hxs : resolveArgsLoop t rest iteration st2 with
              | mk rc2 st3 =>
                rw [hxs] at h
                cases rc2 with
                | error e => cases h
                | ok rs =>
                  dsimp only [] at h
                  simp only [Prod.mk.injEq, Except.ok.injEq] at h
                  rw [← h.1]
                  refine List.Forall₂.cons ⟨rfl, ?_⟩ (ih st2 rs st3 hxs)
                  intro spec hspec
                  dsimp only [] at hspec
                  rw [hsub] at hspec
                  simp only [Except.ok.injEq] at hspec
                  constructor
                  · intro v2 hv2
                    exact ArgSpec.noConfusion (hspec.trans hv2)
                  · intro f2 hf2
                    exact ⟨fx, rfl⟩

theorem has_deps_false_no_default_args (t : Test) (h : t.has_deps = false) :
    t.get_default_args = [] := by
  unfold Test.has_deps Test.deps at h
  rw [decide_eq_false_iff_not] at h
  have hp : t.fn.params = [] := by
    cases hp : t.fn.params with
    | nil => rfl
    | cons q qs => rw [hp] at h; simp at h
  unfold Test.get_default_args
  rw [hp]
  rfl

/-- C1 counterexample: for a test with a fixture default argument resolving
to 42 and a literal default argument 5, `resolve_args` maps the fixture
argument to the `Fixture` wrapper object, which is not the underlying
resolved value 42 that the claim says it maps to. -/
theorem C1_cex :
    (wTestC1.resolve_args { cache := [], trace := [] } 0).1 =
      .ok [("a", Resolved.fixtureObj wFixObjC1), ("b", Resolved.plain 5)] ∧
    wFixObjC1.resolved_val = some 42 ∧
    Resolved.fixtureObj wFixObjC1 ≠ Resolved.plain 42 := by
  decide

/-- C1 as amended: when `resolve_args` returns successfully it returns one
binding per default-bound argument, in order and under the same name, where
a fixture-factory argument (after any `Each` substitution) is mapped to the
`Fixture` wrapper object produced by `_resolve_single_fixture` and any
other argument is mapped to its literal default value unchanged. -/
theorem C1_resolve_args_mapping (t : Test) (st : RState) (iteration : Nat)
    (r : List (String × Resolved)) (st1 : RState)
    (h : t.resolve_args st iteration = (.ok r, st1)) :
    List.Forall₂ (fun (a : String × DefaultArg) (b : String × Resolved) =>
      b.1 = a.1 ∧
      ∀ spec, (match a.2 with
        | DefaultArg.each vs => eachGetItem vs iteration
        | DefaultArg.plain x => Except.ok x) = .ok spec →
        (∀ v, spec = ArgSpec.lit v → b.2 = Resolved.plain v) ∧
        (∀ f, spec = ArgSpec.fix f → ∃ fx, b.2 = Resolved.fixtureObj fx))
      t.get_default_args r := by
  unfold Test.resolve_args at h
  cases hdeps : t.has_deps with
  | false =>
    rw [hdeps] at h
    simp only [if_pos] at h
    simp only [Prod.mk.injEq, Except.ok.injEq] at h
    rw [← h.1, has_deps_false_no_default_args t hdeps]
    exact List.Forall₂.nil
  | true =>
    rw [hdeps] at h
    simp only [Bool.true_eq_false, if_neg, if_false] at h
    exact resolveArgsLoop_shape t iteration t.get_default_args st r st1 h

/-- Closed instantiation of the amended C1 theorem at `wTestC1`. -/
theorem C1_witness :
    List.Forall₂ (fun (a : String × DefaultArg) (b : String × Resolved) =>
      b.1 = a.1 ∧
      ∀ spec, (match a.2 with
        | DefaultArg.each vs => eachGetItem vs 0
        | DefaultArg.plain x => Except.ok x) = .ok spec →
        (∀ v, spec = ArgSpec.lit v → b.2 = Resolved.plain v) ∧
        (∀ f, spec = ArgSpec.fix f → ∃ fx, b.2 = Resolved.fixtureObj fx))
      wTestC1.get_default_args
      [("a", Resolved.fixtureObj wFixObjC1), ("b", Resolved.plain 5)] :=
  C1_resolve_args_mapping wTestC1 { cache := [], trace := [] } 0
    [("a", Resolved.fixtureObj wFixObjC1), ("b", Resolved.plain 5)]
    { cache := [(11, wFixObjC1)],
      trace := [Event.setMeta 11 1 "m1", Event.invoke 11] } (by rfl)

end Ward

namespace Ward

/-- C3 counterexample: after `wTestA3` successfully resolved the stateful
fixture `wFlaky`, resolving the same fixture for `wTestB3` (a test-scope
cache miss) makes the factory raise, `resolve_args` raises `FixtureError`
chaining the original exception, and the cache still contains the
successfully resolved entry left by the first resolution, contradicting the
claim that no successfully resolved entry for the key remains. -/
theorem C3_cex :
    (wTestB3.resolve_args wStC3 0).1 = .error (.fixtureError "flaky" 99) ∧
    cacheLookup (wTestB3.resolve_args wStC3 0).2.cache 21 = some wFixC3cached ∧
    wFixC3cached.resolved_val = some 7 := by
  decide

/-- C3 as amended: when a fixture factory invocation raises `e` during
resolution, `resolve_args` raises a `FixtureError` naming the fixture with
chained cause `e`, and the failed resolution stores nothing in the cache:
the final cache is exactly the cache left by the dependency resolution, so
for a dependency-free factory the cache is unchanged from before the
factory was resolved (in particular a key absent beforehand stays absent; a
stale entry from an earlier successful resolution may remain). -/
theorem C3_fixture_error_no_store (t : Test) (iteration : Nat) (st : RState)
    (pre post : List (String × DefaultArg)) (argname : String)
    (k : Nat) (sc : Scope) (nm : String) (g : Bool)
    (deps : List (String × FixtureFn))
    (beh : Nat → List (String × Option Val) → Except PyErr Val)
    (r1 : List (String × Resolved)) (st0 : RState)
    (kids : List (String × Fixture)) (st2 : RState) (e : PyErr)
    (hargs : t.get_default_args =
      pre ++ (argname, DefaultArg.plain (ArgSpec.fix (.mk k sc nm g deps beh))) :: post)
    (hpre : resolveArgsLoop t pre iteration st = (.ok r1, st0))
    (hmiss : cacheHit t k sc st0.cache = none)
    (hch : resolveChildren t deps
      { st0 with trace := st0.trace ++ [Event.setMeta k t.id t.module_name] } =
      (.ok kids, st2))
    (hbeh : beh (invokeCount st2.trace k)
      (kids.map (fun p => (p.1, p.2.resolved_val))) = .error e) :
    t.resolve_args st iteration =
      (.error (.fixtureError nm e),
       { cache := st2.cache, trace := st2.trace ++ [Event.invoke k] }) ∧
    (deps = [] → st2.cache = st0.cache) := by
  constructor
  · have hne : t.get_default_args ≠ [] := by
      rw [hargs]
      simp
    have hd := has_deps_of_default_args_ne_nil t hne
    unfold Test.resolve_args
    rw [hd]
    simp only [Bool.true_eq_false, if_false]
    rw [hargs, resolveArgsLoop_append, hpre]
    dsimp only []
    rw [resolveArgsLoop_cons_fix]
    rw [resolveSingleFixture_miss t k sc nm g deps beh st0 hmiss]
    rw [hch]
    dsimp only []
    rw [hbeh]
  · intro hdeps
    subst hdeps
    rw [resolveChildren] at hch
    simp only [Prod.mk.injEq, Except.ok.injEq] at hch
    rw [← hch.2]

/-- Closed instantiation of the amended C3 theorem: the second resolution of
the stateful fixture `wFlaky` raises and leaves the cache exactly as the
first resolution left it. -/
theorem C3_witness :
    wTestB3.resolve_args wStC3 0 =
      (.error (.fixtureError "flaky" 99),
       { cache := wStC3.cache,
         trace := (wStC3.trace ++ [Event.setMeta 21 2 "m3"]) ++ [Event.invoke 21] }) ∧
    (([] : List (String × FixtureFn)) = [] →
      ({ cache := wStC3.cache,
         trace := wStC3.trace ++ [Event.setMeta 21 2 "m3"] } : RState).cache =
        wStC3.cache) :=
  C3_fixture_error_no_store wTestB3 0 wStC3 [] [] "f" 21 .Test "flaky" false []
    (fun cnt _ => if cnt = 0 then .ok 7 else .error 99) [] wStC3 []
    { cache := wStC3.cache, trace := wStC3.trace ++ [Event.setMeta 21 2 "m3"] } 99
    (by rfl) (by rfl) (by decide) (by rfl) (by decide)

/-- C10 counterexample: `wTestC10` has an `Each` default argument of length
1, yet `resolve_args` at iteration 5 raises `FixtureError` (from the failing
fixture argument processed first), not `IndexError`, contradicting the claim
that every such call raises `IndexError`. -/
theorem C10_cex :
    (wTestC10.resolve_args { cache := [], trace := [] } 5).1 =
      .error (.fixtureError "boom" 5) ∧
    (wTestC10.resolve_args { cache := [], trace := [] } 5).1 ≠
      .error .indexError ∧
    (∃ p ∈ wTestC10.get_default_args, p.2.each_length = some 1) := by
  decide

/-- C10 as amended: for a test with an `Each` default argument of length `n`
and `iteration ≥ n`, provided the arguments before that `Each` resolve
without raising, `resolve_args` raises `IndexError` from indexing the `Each`
sequence — not `ParameterisationError` and not `FixtureError` — performing
no bounds check of its own. -/
theorem C10_out_of_range_each (t : Test) (iteration : Nat) (st : RState)
    (pre post : List (String × DefaultArg)) (nm : String) (vs : List ArgSpec)
    (r1 : List (String × Resolved)) (st1 : RState)
    (hargs : t.get_default_args = pre ++ (nm, DefaultArg.each vs) :: post)
    (hlen : vs.length ≤ iteration)
    (hpre : resolveArgsLoop t pre iteration st = (.ok r1, st1)) :
    t.resolve_args st iteration = (.error .indexError, st1) := by
  have hsub : eachGetItem vs iteration = .error .indexError := by
    unfold eachGetItem
    rw [List.getElem?_eq_none hlen]
  have hne : t.get_default_args ≠ [] := by
    rw [hargs]
    simp
  have hd := has_deps_of_default_args_ne_nil t hne
  unfold Test.resolve_args
  rw [hd]
  simp only [Bool.true_eq_false, if_false]
  rw [hargs, resolveArgsLoop_append, hpre]
  dsimp only []
  rw [resolveArgsLoop_cons_each_err t nm vs RunError.indexError post iteration st1 hsub]

/-- Closed instantiation of the amended C10 theorem: a test whose only
default argument is an `Each` of length 1, resolved at iteration 5, raises
`IndexError`. -/
theorem C10_witness :
    wTestC10b.resolve_args { cache := [], trace := [] } 5 =
      (.error .indexError, { cache := [], trace := [] }) :=
  C10_out_of_range_each wTestC10b 5 { cache := [], trace := [] } [] []
    "e" [.lit 1] [] { cache := [], trace := [] } (by rfl) (by decide) (by rfl)

end Ward
